import Mathlib

/-!
Verification of the calendar view engine of the MyPlanner task manager
(`CalendarView` component and surrounding task actions).

The component stores its anchor date in a JavaScript `Date` and uses the
standard `Date` built-ins (`getFullYear`, `getMonth`, `getDate`, `getDay`,
`setDate`, `setMonth`, `setFullYear`, `toISOString`).  We model a `Date`
value by its day number `z : Int` (days since the epoch 1970-01-01; the
views only ever work at day granularity).  The civil/day-number
conversions below implement the proleptic Gregorian calendar that the
ECMAScript specification prescribes for `Date` (MakeDay / YearFromTime /
MonthFromTime / DateFromTime / WeekDay).  The runtime time zone is
modelled as UTC, so `toISOString`'s date component coincides with the
civil date of the value; this matches the deployment assumption the
component itself makes when it compares `date.toISOString()` prefixes
with stored date strings.
-/

namespace MyPlanner

/-- Era index (blocks of 400 years = 146097 days) containing day `z`,
with the era origin placed at 0000-03-01 (offset 719468 from the epoch). -/
def eraOfDay (z : Int) : Int := (z + 719468) / 146097

/-- Day-of-era, in `[0, 146096]`. -/
def doeOfDay (z : Int) : Int := z + 719468 - eraOfDay z * 146097

/-- Year-of-era (March-based) of a day-of-era: first guess `doe / 365`,
adjusted down when the guess overshoots the year start or the era end. -/
def yoeOf (doe : Int) : Int :=
  if 365 * (doe / 365) + doe / 365 / 4 - doe / 365 / 100 ≤ doe ∧ doe / 365 ≤ 399
  then doe / 365 else doe / 365 - 1

/-- Day-of-year (0-based, March-based year) of a day-of-era. -/
def doyOf (doe : Int) : Int :=
  doe - (365 * yoeOf doe + yoeOf doe / 4 - yoeOf doe / 100)

/-- March-based month index (0 = March .. 11 = February) of a day-of-year. -/
def mpOf (doy : Int) : Int := (5 * doy + 2) / 153

/-- Day-of-month (1-based) of a day-of-year. -/
def domOf (doy : Int) : Int := doy - (153 * mpOf doy + 2) / 5 + 1

/-- Calendar month (1 = January .. 12 = December) of a March-based month index. -/
def monthOfMp (mp : Int) : Int := if mp < 10 then mp + 3 else mp - 9

/-- Civil date `(year, month 1-12, day 1-31)` of a day number. -/
def civilFromDays (z : Int) : Int × Int × Int :=
  (if monthOfMp (mpOf (doyOf (doeOfDay z))) ≤ 2
   then yoeOf (doeOfDay z) + eraOfDay z * 400 + 1
   else yoeOf (doeOfDay z) + eraOfDay z * 400,
   monthOfMp (mpOf (doyOf (doeOfDay z))),
   domOf (doyOf (doeOfDay z)))

/-- Day number of a civil date `(year, month 1-12, day)`. -/
def daysFromCivil (y0 m d : Int) : Int :=
  (if m ≤ 2 then y0 - 1 else y0) / 400 * 146097 +
    (((if m ≤ 2 then y0 - 1 else y0) - (if m ≤ 2 then y0 - 1 else y0) / 400 * 400) * 365 +
      ((if m ≤ 2 then y0 - 1 else y0) - (if m ≤ 2 then y0 - 1 else y0) / 400 * 400) / 4 -
      ((if m ≤ 2 then y0 - 1 else y0) - (if m ≤ 2 then y0 - 1 else y0) / 400 * 400) / 100 +
      ((153 * (if m > 2 then m - 3 else m + 9) + 2) / 5 + d - 1)) - 719468

/-- Number of days in a month (`month` is 1-based), textbook Gregorian rule. -/
def daysInMonthCivil (y m : Int) : Int :=
  if m = 2 then (if y % 4 = 0 ∧ (y % 100 ≠ 0 ∨ y % 400 = 0) then 29 else 28)
  else if m = 4 ∨ m = 6 ∨ m = 9 ∨ m = 11 then 30 else 31

theorem doe_bounds (z : Int) : 0 ≤ doeOfDay z ∧ doeOfDay z ≤ 146096 := by
  unfold doeOfDay eraOfDay
  omega

theorem yoe_bounds (doe : Int) (h0 : 0 ≤ doe) (h1 : doe ≤ 146096) :
    0 ≤ yoeOf doe ∧ yoeOf doe ≤ 399 ∧ 0 ≤ doyOf doe ∧ doyOf doe ≤ 365 := by
  unfold doyOf yoeOf
  split_ifs <;> omega

theorem mp_bounds (doy : Int) (h0 : 0 ≤ doy) (h1 : doy ≤ 365) :
    0 ≤ mpOf doy ∧ mpOf doy ≤ 11 ∧ 1 ≤ domOf doy ∧ domOf doy ≤ 31 ∧
      (153 * mpOf doy + 2) / 5 + domOf doy - 1 = doy := by
  unfold domOf mpOf
  omega

theorem recompose (era yoe doy : Int)
    (hyoe0 : 0 ≤ yoe) (hyoe1 : yoe ≤ 399) (hdoy0 : 0 ≤ doy) (hdoy1 : doy ≤ 365)
    (hmp0 : 0 ≤ mpOf doy) (hmp1 : mpOf doy ≤ 11) :
    daysFromCivil
      (if monthOfMp (mpOf doy) ≤ 2 then yoe + era * 400 + 1 else yoe + era * 400)
      (monthOfMp (mpOf doy)) (domOf doy)
      = era * 146097 + (365 * yoe + yoe / 4 - yoe / 100 + doy) - 719468 := by
  have hrec := (mp_bounds doy hdoy0 hdoy1).2.2.2.2
  unfold daysFromCivil monthOfMp
  generalize hm : mpOf doy = mp at *
  generalize hd : domOf doy = dd at *
  split_ifs <;> omega

/-- Converting a day number to a civil date and back is the identity. -/
theorem daysFromCivil_civilFromDays (z : Int) :
    daysFromCivil (civilFromDays z).1 (civilFromDays z).2.1 (civilFromDays z).2.2 = z := by
  have hdoe := doe_bounds z
  have hy := yoe_bounds (doeOfDay z) hdoe.1 hdoe.2
  have hm := mp_bounds (doyOf (doeOfDay z)) hy.2.2.1 hy.2.2.2
  have hr := recompose (eraOfDay z) (yoeOf (doeOfDay z)) (doyOf (doeOfDay z))
    hy.1 hy.2.1 hy.2.2.1 hy.2.2.2 hm.1 hm.2.1
  show daysFromCivil
      (if monthOfMp (mpOf (doyOf (doeOfDay z))) ≤ 2
       then yoeOf (doeOfDay z) + eraOfDay z * 400 + 1
       else yoeOf (doeOfDay z) + eraOfDay z * 400)
      (monthOfMp (mpOf (doyOf (doeOfDay z))))
      (domOf (doyOf (doeOfDay z))) = z
  rw [hr]
  have hdoy : doyOf (doeOfDay z) =
      doeOfDay z - (365 * yoeOf (doeOfDay z) + yoeOf (doeOfDay z) / 4 -
        yoeOf (doeOfDay z) / 100) := rfl
  have hde : doeOfDay z = z + 719468 - eraOfDay z * 146097 := rfl
  omega

theorem yoeOf_eq (yoe doe : Int) (h0 : 0 ≤ yoe) (h1 : yoe ≤ 399)
    (hlow : 365 * yoe + yoe / 4 - yoe / 100 ≤ doe)
    (hhigh : doe < 365 * (yoe + 1) + (yoe + 1) / 4 - (yoe + 1) / 100 ∨
      (yoe = 399 ∧ doe = 146096)) :
    yoeOf doe = yoe := by
  have hg : doe / 365 = yoe ∨ doe / 365 = yoe + 1 := by omega
  unfold yoeOf
  rcases hg with hg | hg <;> split_ifs <;> omega

theorem mpOf_eq (mp2 d : Int) (h0 : 0 ≤ mp2) (h1 : mp2 ≤ 11) (hd : 1 ≤ d)
    (hlt : (153 * mp2 + 2) / 5 + d - 1 < (153 * (mp2 + 1) + 2) / 5 ∨
      (mp2 = 11 ∧ (153 * mp2 + 2) / 5 + d - 1 ≤ 365)) :
    mpOf ((153 * mp2 + 2) / 5 + d - 1) = mp2 ∧
      domOf ((153 * mp2 + 2) / 5 + d - 1) = d := by
  unfold domOf mpOf
  rcases hlt with h | h
  · interval_cases mp2 <;> omega
  · omega

theorem civil_eq (era yoe mp2 d : Int)
    (hy0 : 0 ≤ yoe) (hy1 : yoe ≤ 399) (hm0 : 0 ≤ mp2) (hm1 : mp2 ≤ 11) (hd : 1 ≤ d)
    (hlt : (mp2 ≤ 10 ∧ (153 * mp2 + 2) / 5 + d - 1 < (153 * (mp2 + 1) + 2) / 5) ∨
      (mp2 = 11 ∧ ((153 * mp2 + 2) / 5 + d - 1 ≤ 364 ∨
        ((153 * mp2 + 2) / 5 + d - 1 = 365 ∧ (yoe + 1) % 4 = 0 ∧
          ((yoe + 1) % 100 ≠ 0 ∨ yoe + 1 = 400))))) :
    civilFromDays (era * 146097 +
        (365 * yoe + yoe / 4 - yoe / 100 + ((153 * mp2 + 2) / 5 + d - 1)) - 719468)
      = (if mp2 < 10 then era * 400 + yoe else era * 400 + yoe + 1,
         monthOfMp mp2, d) := by
  have hdoy0 : 0 ≤ (153 * mp2 + 2) / 5 + d - 1 := by omega
  have hdoy1 : (153 * mp2 + 2) / 5 + d - 1 ≤ 365 := by omega
  have hera : eraOfDay (era * 146097 +
      (365 * yoe + yoe / 4 - yoe / 100 + ((153 * mp2 + 2) / 5 + d - 1)) - 719468) = era := by
    unfold eraOfDay; omega
  have hdoeq : doeOfDay (era * 146097 +
      (365 * yoe + yoe / 4 - yoe / 100 + ((153 * mp2 + 2) / 5 + d - 1)) - 719468)
      = 365 * yoe + yoe / 4 - yoe / 100 + ((153 * mp2 + 2) / 5 + d - 1) := by
    unfold doeOfDay eraOfDay; omega
  have hyoe : yoeOf (365 * yoe + yoe / 4 - yoe / 100 + ((153 * mp2 + 2) / 5 + d - 1))
      = yoe := by
    apply yoeOf_eq _ _ hy0 hy1
    · omega
    · omega
  have hdoyq : doyOf (365 * yoe + yoe / 4 - yoe / 100 + ((153 * mp2 + 2) / 5 + d - 1))
      = (153 * mp2 + 2) / 5 + d - 1 := by
    unfold doyOf; rw [hyoe]; ring
  have hmp := mpOf_eq mp2 d hm0 hm1 hd (by omega)
  unfold civilFromDays
  rw [hdoeq, hdoyq, hmp.1, hmp.2, hyoe, hera]
  clear hera hdoeq hyoe hdoyq hmp hdoy0 hdoy1 hlt
  unfold monthOfMp
  split_ifs <;> simp only [Prod.mk.injEq, and_true] <;> omega

/-- Converting a valid civil date to a day number and back is the identity. -/
theorem civilFromDays_daysFromCivil (y m d : Int) (hm1 : 1 ≤ m) (hm2 : m ≤ 12)
    (hd1 : 1 ≤ d) (hd2 : d ≤ daysInMonthCivil y m) :
    civilFromDays (daysFromCivil y m d) = (y, m, d) := by
  have harg : daysFromCivil y m d =
      (if m ≤ 2 then y - 1 else y) / 400 * 146097 +
        (365 * ((if m ≤ 2 then y - 1 else y) -
            (if m ≤ 2 then y - 1 else y) / 400 * 400) +
          ((if m ≤ 2 then y - 1 else y) -
            (if m ≤ 2 then y - 1 else y) / 400 * 400) / 4 -
          ((if m ≤ 2 then y - 1 else y) -
            (if m ≤ 2 then y - 1 else y) / 400 * 400) / 100 +
          ((153 * (if 2 < m then m - 3 else m + 9) + 2) / 5 + d - 1)) - 719468 := by
    unfold daysFromCivil
    split_ifs <;> omega
  have hkey := civil_eq
    ((if m ≤ 2 then y - 1 else y) / 400)
    ((if m ≤ 2 then y - 1 else y) - (if m ≤ 2 then y - 1 else y) / 400 * 400)
    (if 2 < m then m - 3 else m + 9) d
    (by split_ifs <;> omega) (by split_ifs <;> omega)
    (by split_ifs <;> omega) (by split_ifs <;> omega) hd1
    (by
      unfold daysInMonthCivil at hd2
      split_ifs at hd2 <;> split_ifs <;> interval_cases m <;> omega)
  rw [harg, hkey]
  simp only [Prod.mk.injEq, and_true]
  constructor
  · split_ifs <;> omega
  · unfold monthOfMp
    split_ifs <;> omega

/-- ECMAScript MakeDay: `new Date(y, m, d)` at day granularity.  `m` is the
0-based month index and may lie outside `[0, 11]`; `d` may lie outside the
month, both are normalized exactly as the specification prescribes
(month overflow moves the year, day overflow moves into adjacent months). -/
def makeDay (y m d : Int) : Int :=
  daysFromCivil (y + m / 12) (m % 12 + 1) 1 + (d - 1)

/-- `date.getFullYear()` (runtime modelled in UTC). -/
def getFullYear (z : Int) : Int := (civilFromDays z).1

/-- `date.getMonth()`: 0-based month index. -/
def getMonth (z : Int) : Int := (civilFromDays z).2.1 - 1

/-- `date.getDate()`: 1-based day of month. -/
def getDate (z : Int) : Int := (civilFromDays z).2.2

/-- `date.getDay()`: weekday, 0 = Sunday (the epoch day 1970-01-01 was a
Thursday, weekday 4). -/
def getDay (z : Int) : Int := (z + 4) % 7

/-- `date.setDate(k)`. -/
def setDate (z k : Int) : Int := makeDay (getFullYear z) (getMonth z) k

/-- `date.setMonth(m)`. -/
def setMonth (z m : Int) : Int := makeDay (getFullYear z) m (getDate z)

/-- `date.setFullYear(y)`. -/
def setFullYear (z y : Int) : Int := makeDay y (getMonth z) (getDate z)

/-- `new Date(y, mIdx + 1, 0).getDate()`: the component's idiom for the
number of days in 0-based month `mIdx` of year `y`. -/
def daysInMonthJS (y mIdx : Int) : Int := getDate (makeDay y (mIdx + 1) 0)

theorem civil_range (z : Int) :
    1 ≤ (civilFromDays z).2.1 ∧ (civilFromDays z).2.1 ≤ 12 ∧
      1 ≤ (civilFromDays z).2.2 ∧ (civilFromDays z).2.2 ≤ 31 := by
  have hdoe := doe_bounds z
  have hy := yoe_bounds (doeOfDay z) hdoe.1 hdoe.2
  have hm := mp_bounds (doyOf (doeOfDay z)) hy.2.2.1 hy.2.2.2
  show 1 ≤ monthOfMp (mpOf (doyOf (doeOfDay z))) ∧
      monthOfMp (mpOf (doyOf (doeOfDay z))) ≤ 12 ∧
      1 ≤ domOf (doyOf (doeOfDay z)) ∧ domOf (doyOf (doeOfDay z)) ≤ 31
  unfold monthOfMp
  split_ifs <;> omega

theorem daysFromCivil_shift (y m d : Int) :
    daysFromCivil y m d = daysFromCivil y m 1 + (d - 1) := by
  unfold daysFromCivil
  omega

/-- The first day of the following month is the first day of the month plus
the month length. -/
theorem daysFromCivil_succ_month (y m : Int) (h1 : 1 ≤ m) (h2 : m ≤ 12) :
    (if m = 12 then daysFromCivil (y + 1) 1 1 else daysFromCivil y (m + 1) 1)
      = daysFromCivil y m 1 + daysInMonthCivil y m := by
  interval_cases m <;>
    simp only [daysFromCivil, daysInMonthCivil] <;>
    norm_num <;> (try split_ifs) <;> omega

/-- `new Date(y, mIdx, d)` lands on the expected civil date when the
0-based month index and day are in range. -/
theorem makeDay_civil (y mIdx d : Int) (h0 : 0 ≤ mIdx) (h1 : mIdx ≤ 11)
    (hd1 : 1 ≤ d) (hd2 : d ≤ daysInMonthCivil y (mIdx + 1)) :
    civilFromDays (makeDay y mIdx d) = (y, mIdx + 1, d) := by
  unfold makeDay
  have e1 : y + mIdx / 12 = y := by omega
  have e2 : mIdx % 12 + 1 = mIdx + 1 := by omega
  rw [e1, e2, ← daysFromCivil_shift y (mIdx + 1) d]
  exact civilFromDays_daysFromCivil y (mIdx + 1) d (by omega) (by omega) hd1 hd2

/-- `d.setDate(k)` moves the day number by `k - d.getDate()`. -/
theorem setDate_add (z k : Int) : setDate z k = z - getDate z + k := by
  have hm := civil_range z
  have hrt := daysFromCivil_civilFromDays z
  have hlin := daysFromCivil_shift (civilFromDays z).1 (civilFromDays z).2.1
    (civilFromDays z).2.2
  unfold setDate makeDay getFullYear getMonth getDate
  have e1 : (civilFromDays z).1 + ((civilFromDays z).2.1 - 1) / 12
      = (civilFromDays z).1 := by omega
  have e2 : ((civilFromDays z).2.1 - 1) % 12 + 1 = (civilFromDays z).2.1 := by omega
  rw [e1, e2]
  omega

theorem daysInMonthCivil_range (y m : Int) :
    28 ≤ daysInMonthCivil y m ∧ daysInMonthCivil y m ≤ 31 := by
  unfold daysInMonthCivil
  split_ifs <;> omega

/-- The component's `new Date(y, mIdx + 1, 0).getDate()` agrees with the
textbook month-length formula. -/
theorem daysInMonthJS_eq (y mIdx : Int) (h0 : 0 ≤ mIdx) (h1 : mIdx ≤ 11) :
    daysInMonthJS y mIdx = daysInMonthCivil y (mIdx + 1) := by
  have hlen := daysInMonthCivil_range y (mIdx + 1)
  unfold daysInMonthJS makeDay getDate
  by_cases hc : mIdx ≤ 10
  · have e1 : y + (mIdx + 1) / 12 = y := by omega
    have e2 : (mIdx + 1) % 12 + 1 = mIdx + 1 + 1 := by omega
    rw [e1, e2]
    have hsucc := daysFromCivil_succ_month y (mIdx + 1) (by omega) (by omega)
    rw [if_neg (by omega)] at hsucc
    rw [hsucc]
    have harg : daysFromCivil y (mIdx + 1) 1 + daysInMonthCivil y (mIdx + 1) + (0 - 1)
        = daysFromCivil y (mIdx + 1) (daysInMonthCivil y (mIdx + 1)) := by
      have := daysFromCivil_shift y (mIdx + 1) (daysInMonthCivil y (mIdx + 1))
      omega
    rw [harg, civilFromDays_daysFromCivil y (mIdx + 1) (daysInMonthCivil y (mIdx + 1))
      (by omega) (by omega) (by omega) (le_refl _)]
  · have hc11 : mIdx = 11 := by omega
    subst hc11
    have e1 : y + ((11 : Int) + 1) / 12 = y + 1 := by norm_num
    have e2 : ((11 : Int) + 1) % 12 + 1 = 1 := by norm_num
    rw [e1, e2]
    have hsucc := daysFromCivil_succ_month y 12 (by norm_num) (le_refl _)
    rw [if_pos rfl] at hsucc
    have h12 : daysInMonthCivil y 12 = 31 := by unfold daysInMonthCivil; norm_num
    have h12b : daysInMonthCivil y (11 + 1) = 31 := by unfold daysInMonthCivil; norm_num
    rw [hsucc, h12, h12b]
    have harg : daysFromCivil y 12 1 + 31 + (0 - 1) = daysFromCivil y 12 31 := by
      have := daysFromCivil_shift y 12 31
      omega
    rw [harg, civilFromDays_daysFromCivil y 12 31 (by norm_num) (le_refl _) (by norm_num)
      (by rw [h12])]

theorem getDay_range (z : Int) : 0 ≤ getDay z ∧ getDay z ≤ 6 := by
  unfold getDay
  omega

/-- JavaScript `String.prototype.split` with a one-character separator,
on the character list of the string.  `"".split(sep)` is `[""]`, and a
trailing separator yields a trailing empty segment, as in JS. -/
def jsSplit (sep : Char) : List Char → List (List Char)
  | [] => [[]]
  | c :: rest =>
    if c = sep then [] :: jsSplit sep rest
    else
      match jsSplit sep rest with
      | [] => [[c]]
      | s :: ss => (c :: s) :: ss

/-- The decimal digit character of `n % 10` (ECMAScript decimal formatting;
48 is the code point of the character zero). -/
def digitOf (n : Int) : Char := Char.ofNat (48 + (n % 10).toNat)

/-- Numeric value of a decimal digit character (`none` otherwise). -/
def digitVal (c : Char) : Option Int :=
  if 48 ≤ c.toNat ∧ c.toNat ≤ 57 then some ((c.toNat : Int) - 48) else none

/-- The `YYYY-MM-DD` character sequence for a civil date (year shown
modulo 10000: the views only handle the years `toISOString` prints in
plain four-digit form). -/
def isoKeyChars (y m d : Int) : List Char :=
  [digitOf (y / 1000), digitOf (y / 100), digitOf (y / 10), digitOf y, '-',
   digitOf (m / 10), digitOf m, '-', digitOf (d / 10), digitOf d]

/-- `date.toISOString().split('T')[0]` for a day-number date (runtime
modelled in UTC, so this is the date's own civil `YYYY-MM-DD`). -/
def toISOKey (z : Int) : List Char :=
  isoKeyChars (civilFromDays z).1 (civilFromDays z).2.1 (civilFromDays z).2.2

/-- `s.split('T')[0]`: the bucket key of a stored due-date string. -/
def bucketKeyChars (s : String) : List Char := (jsSplit 'T' s.data).headD []

/-- JavaScript `Number()` on a string fragment, for the plain-decimal
subset the component feeds it (`Number("") = 0`, digits parse, anything
else is NaN = `none`). -/
def jsNumber (cs : List Char) : Option Int :=
  match cs with
  | [] => some 0
  | _ =>
    if cs.all (fun c => (digitVal c).isSome)
    then some (cs.foldl (fun n c => n * 10 + (digitVal c).getD 0) 0)
    else none

theorem digitOf_ne_dash (n : Int) : digitOf n ≠ '-' := by
  have h : n % 10 = 0 ∨ n % 10 = 1 ∨ n % 10 = 2 ∨ n % 10 = 3 ∨ n % 10 = 4 ∨
      n % 10 = 5 ∨ n % 10 = 6 ∨ n % 10 = 7 ∨ n % 10 = 8 ∨ n % 10 = 9 := by omega
  unfold digitOf
  rcases h with h | h | h | h | h | h | h | h | h | h <;> rw [h] <;> decide

theorem digitVal_digitOf (n : Int) : digitVal (digitOf n) = some (n % 10) := by
  have h : n % 10 = 0 ∨ n % 10 = 1 ∨ n % 10 = 2 ∨ n % 10 = 3 ∨ n % 10 = 4 ∨
      n % 10 = 5 ∨ n % 10 = 6 ∨ n % 10 = 7 ∨ n % 10 = 8 ∨ n % 10 = 9 := by omega
  unfold digitOf digitVal
  rcases h with h | h | h | h | h | h | h | h | h | h <;> rw [h] <;> decide

theorem toISOKey_length (z : Int) : (toISOKey z).length = 10 := rfl

example : bucketKeyChars (String.mk ['2', '0', '2', '4', '-', '0', '5', '-', '1', '0',
    'T', '0', '9', ':', '0', '0']) = ['2', '0', '2', '4', '-', '0', '5', '-', '1', '0'] := by
  decide

theorem jsSplit_isoKey (y m d : Int) :
    jsSplit '-' (isoKeyChars y m d) =
      [[digitOf (y / 1000), digitOf (y / 100), digitOf (y / 10), digitOf y],
       [digitOf (m / 10), digitOf m], [digitOf (d / 10), digitOf d]] := by
  simp [jsSplit, isoKeyChars, digitOf_ne_dash]

theorem jsNumber_two (a b : Int) :
    jsNumber [digitOf a, digitOf b] = some ((a % 10) * 10 + b % 10) := by
  simp [jsNumber, digitVal_digitOf]

theorem jsNumber_four (a b c d : Int) :
    jsNumber [digitOf a, digitOf b, digitOf c, digitOf d]
      = some ((a % 10) * 1000 + (b % 10) * 100 + (c % 10) * 10 + d % 10) := by
  simp [jsNumber, digitVal_digitOf]
  ring

/-- The Schedule view's display date: `dateStr.split('-').map(Number)`
destructured into `[y, m, d]` and fed to `new Date(y, m - 1, d)`; it only
looks at the group's bucket key, never the task's full timestamp.  The
`Date(year, month, day)` constructor applies the ECMAScript
two-digit-year rule: a year argument between 0 and 99 denotes
1900 + year.  `none` models an invalid `Date` (some component was NaN or
missing). -/
def displayDateOfKey (key : List Char) : Option Int :=
  match jsSplit '-' key with
  | ys :: ms :: ds :: _ =>
    match jsNumber ys, jsNumber ms, jsNumber ds with
    | some y, some m, some d =>
      some (makeDay (if 0 ≤ y ∧ y ≤ 99 then 1900 + y else y) (m - 1) d)
    | _, _, _ => none
  | _ => none

/-- Parsing a formatted `YYYY-MM-DD` key feeds its numeric components
(with two-digit years shifted by the constructor rule) to `new Date`. -/
theorem displayDateOfKey_isoKeyChars (y m d : Int)
    (hy0 : 0 ≤ y) (hy1 : y ≤ 9999) (hm0 : 0 ≤ m) (hm9 : m ≤ 99)
    (hd0 : 0 ≤ d) (hd9 : d ≤ 99) :
    displayDateOfKey (isoKeyChars y m d)
      = some (makeDay (if 0 ≤ y ∧ y ≤ 99 then 1900 + y else y) (m - 1) d) := by
  have hy' : jsNumber [digitOf (y / 1000), digitOf (y / 100), digitOf (y / 10), digitOf y]
      = some y := by
    rw [jsNumber_four]
    congr 1
    omega
  have hm' : jsNumber [digitOf (m / 10), digitOf m] = some m := by
    rw [jsNumber_two]
    congr 1
    omega
  have hd' : jsNumber [digitOf (d / 10), digitOf d] = some d := by
    rw [jsNumber_two]
    congr 1
    omega
  unfold displayDateOfKey
  rw [jsSplit_isoKey]
  dsimp only
  rw [hy', hm', hd']

/-- Parsing the formatted key of a date with a full (three-or-more digit)
year recovers the date exactly. -/
theorem displayDateOfKey_toISOKey (z : Int)
    (hy0 : 100 ≤ (civilFromDays z).1) (hy1 : (civilFromDays z).1 ≤ 9999) :
    displayDateOfKey (toISOKey z) = some z := by
  have hr := civil_range z
  unfold toISOKey
  rw [displayDateOfKey_isoKeyChars (civilFromDays z).1 (civilFromDays z).2.1
    (civilFromDays z).2.2 (by omega) hy1 (by omega) (by omega) (by omega) (by omega)]
  rw [if_neg (by omega)]
  have hrt := daysFromCivil_civilFromDays z
  have hlin := daysFromCivil_shift (civilFromDays z).1 (civilFromDays z).2.1
    (civilFromDays z).2.2
  unfold makeDay
  have e1 : (civilFromDays z).1 + ((civilFromDays z).2.1 - 1) / 12
      = (civilFromDays z).1 := by omega
  have e2 : ((civilFromDays z).2.1 - 1) % 12 + 1 = (civilFromDays z).2.1 := by omega
  rw [e1, e2]
  congr 1
  omega

inductive Priority
  | low
  | medium
  | high
  | urgent
deriving DecidableEq

inductive TaskStatus
  | todo
  | inProgress
  | done
deriving DecidableEq

inductive Recurrence
  | none
  | daily
  | weekly
  | monthly
deriving DecidableEq

structure Category where
  id : String
  name : String
  color : String
deriving DecidableEq

/-- The `Task` record of `types.ts` (optional string fields are `Option`;
`dueDate` stores an ISO-8601 date or date-time string when present). -/
structure Task where
  id : String
  title : String
  description : Option String
  dueDate : Option String
  startTime : Option String
  endTime : Option String
  priority : Priority
  status : TaskStatus
  category : String
  tags : List String
  recurrence : Recurrence
  createdAt : Int
deriving DecidableEq

/-- JS truthiness of `task.dueDate`: present and not the empty string. -/
def hasDue (t : Task) : Bool :=
  match t.dueDate with
  | some s => !s.data.isEmpty
  | none => false

/-- `getTasksForDate`: keeps the tasks whose due-date string's `split('T')[0]`
prefix equals `date.toISOString().split('T')[0]` verbatim (the `new
Date(task.dueDate)` the source also builds is dead code for the result). -/
def getTasksForDate (tasks : List Task) (date : Int) : List Task :=
  tasks.filter fun t =>
    match t.dueDate with
    | none => false
    | some s => if s.data.isEmpty then false else decide (bucketKeyChars s = toISOKey date)

def digitVal2 (a b : Char) : Option Int :=
  match digitVal a, digitVal b with
  | some x, some y => some (x * 10 + y)
  | _, _ => none

def digitVal4 (a b c d : Char) : Option Int :=
  match digitVal2 a b, digitVal2 c d with
  | some x, some y => some (x * 100 + y)
  | _, _ => none

/-- Day number of a well-formed `YYYY-MM-DD`; `none` otherwise. -/
def parseDateChars (cs : List Char) : Option Int :=
  match jsSplit '-' cs with
  | [[y1, y2, y3, y4], [m1, m2], [d1, d2]] =>
    match digitVal4 y1 y2 y3 y4, digitVal2 m1 m2, digitVal2 d1 d2 with
    | some y, some m, some d =>
      if 1 ≤ m ∧ m ≤ 12 ∧ 1 ≤ d ∧ d ≤ daysInMonthCivil y m
      then some (daysFromCivil y m d) else none
    | _, _, _ => none
  | _ => none

/-- Millisecond-of-day of a well-formed `HH:mm`, `HH:mm:ss` or
`HH:mm:ss.sss` time; `none` otherwise. -/
def parseTimeChars (cs : List Char) : Option Int :=
  match jsSplit ':' cs with
  | [[h1, h2], [m1, m2]] =>
    match digitVal2 h1 h2, digitVal2 m1 m2 with
    | some hh, some mm =>
      if hh ≤ 23 ∧ mm ≤ 59 then some ((hh * 3600 + mm * 60) * 1000) else none
    | _, _ => none
  | [[h1, h2], [m1, m2], [s1, s2]] =>
    match digitVal2 h1 h2, digitVal2 m1 m2, digitVal2 s1 s2 with
    | some hh, some mm, some ss =>
      if hh ≤ 23 ∧ mm ≤ 59 ∧ ss ≤ 59
      then some ((hh * 3600 + mm * 60 + ss) * 1000) else none
    | _, _, _ => none
  | [[h1, h2], [m1, m2], [s1, s2, '.', f1, f2, f3]] =>
    match digitVal2 h1 h2, digitVal2 m1 m2, digitVal2 s1 s2,
        digitVal f1, digitVal f2, digitVal f3 with
    | some hh, some mm, some ss, some a, some b, some c =>
      if hh ≤ 23 ∧ mm ≤ 59 ∧ ss ≤ 59
      then some ((hh * 3600 + mm * 60 + ss) * 1000 + (a * 100 + b * 10 + c)) else none
    | _, _, _, _, _, _ => none
  | _ => none

/-- Drop a trailing UTC designator from a time segment.  Under the
UTC-modelled runtime a `Z` suffix does not change the value. -/
def stripZ (cs : List Char) : List Char :=
  if cs.getLast? = some 'Z' then cs.dropLast else cs

/-- `new Date(s).getTime()` in milliseconds, for the ECMAScript date-time
string formats the app stores: plain `YYYY-MM-DD` (the date form) and
`YYYY-MM-DDTHH:mm[:ss[.sss]][Z]` — in particular the canonical
`toISOString` output `YYYY-MM-DDTHH:mm:ss.sssZ` that `handleAddTask`
writes.  The runtime is modelled in UTC, where date-only (UTC), naive
date-time (local) and `Z`-suffixed (UTC) strings all denote the same
instant.  `none` models NaN (an unparsable string). -/
def jsTimeValue (s : String) : Option Int :=
  match jsSplit 'T' s.data with
  | [dp] => (parseDateChars dp).map fun dn => dn * 86400000
  | [dp, tp] =>
    match parseDateChars dp, parseTimeChars (stripZ tp) with
    | some dn, some tm => some (dn * 86400000 + tm)
    | _, _ => none
  | _ => none

def timeOf (t : Task) : Option Int :=
  match t.dueDate with
  | some s => jsTimeValue s
  | none => none

/-- The sort comparator `(a, b) => new Date(a.dueDate).getTime() - new
Date(b.dueDate).getTime()`, read as "a not after b"; a NaN comparison
result leaves the pair in input order, which this model reads as a tie. -/
def leTime (a b : Task) : Bool :=
  match timeOf a, timeOf b with
  | some x, some y => decide (x ≤ y)
  | _, _ => true

def insertByTime (x : Task) : List Task → List Task
  | [] => [x]
  | y :: ys => if leTime x y then x :: y :: ys else y :: insertByTime x ys

/-- `Array.prototype.sort` with the timestamp comparator: the unique stable
sort for this comparator (stable sorting is required since ES2019). -/
def jsSortByTime : List Task → List Task
  | [] => []
  | x :: xs => insertByTime x (jsSortByTime xs)

/-- `grouped[key].push(t)`, with `grouped` an object whose (non-index
string) keys enumerate in insertion order. -/
def pushTask (k : List Char) (t : Task) :
    List (List Char × List Task) → List (List Char × List Task)
  | [] => [(k, [t])]
  | (k2, ts) :: rest =>
    if k2 = k then (k2, ts ++ [t]) :: rest else (k2, ts) :: pushTask k t rest

def groupTasksAux (acc : List (List Char × List Task)) :
    List Task → List (List Char × List Task)
  | [] => acc
  | t :: rest =>
    match t.dueDate with
    | some s =>
      if s.data.isEmpty then groupTasksAux acc rest
      else groupTasksAux (pushTask (bucketKeyChars s) t acc) rest
    | none => groupTasksAux acc rest

/-- The Schedule view's grouped timeline: filter tasks with a (truthy)
`dueDate`, sort by timestamp, then group by `dueDate.split('T')[0]`. -/
def scheduleGroups (tasks : List Task) : List (List Char × List Task) :=
  groupTasksAux [] (jsSortByTime (tasks.filter hasDue))

/-- `Object.keys(grouped)`: the group keys in order. -/
def scheduleDates (tasks : List Task) : List (List Char) :=
  (scheduleGroups tasks).map Prod.fst

/-- Day view: the single day's task list. -/
def renderDayView (tasks : List Task) (anchor : Int) : List Task :=
  getTasksForDate tasks anchor

/-- `startOfWeek`: the anchor shifted back by its weekday index. -/
def startOfWeek (anchor : Int) : Int :=
  setDate anchor (getDate anchor - getDay anchor)

/-- The 7 dates of the Week view. -/
def weekDates (anchor : Int) : List Int :=
  (List.range 7).map fun (i : Nat) =>
    setDate (startOfWeek anchor) (getDate (startOfWeek anchor) + (i : Int))

/-- Week view: one column (date, tasks of that date) per day. -/
def renderWeekView (tasks : List Task) (anchor : Int) : List (Int × List Task) :=
  (weekDates anchor).map fun dte => (dte, getTasksForDate tasks dte)

/-- Month view grid: `firstDay` leading empty cells (`none`), then one cell
per day of the month, each with its date and bucketed tasks.  No trailing
padding is appended. -/
def renderMonthView (tasks : List Task) (anchor : Int) : List (Option (Int × List Task)) :=
  List.replicate (getDay (makeDay (getFullYear anchor) (getMonth anchor) 1)).toNat
      Option.none ++
    (List.range (daysInMonthJS (getFullYear anchor) (getMonth anchor)).toNat).map
      fun (i : Nat) => some (makeDay (getFullYear anchor) (getMonth anchor) ((i : Int) + 1),
        getTasksForDate tasks (makeDay (getFullYear anchor) (getMonth anchor) ((i : Int) + 1)))

/-- The clickable day cells of one Year-view mini-month: the dates
`new Date(year, monthIndex, d)` for `d = 1 .. daysInMonth`. -/
def yearDayCells (y mIdx : Int) : List Int :=
  (List.range (daysInMonthJS y mIdx).toNat).map fun (i : Nat) => makeDay y mIdx ((i : Int) + 1)

inductive ViewMode
  | day
  | week
  | month
  | year
  | schedule
deriving DecidableEq

inductive Direction
  | prev
  | next
deriving DecidableEq

/-- The component state: `currentDate` (the anchor) and `viewMode`. -/
structure ViewState where
  currentDate : Int
  viewMode : ViewMode
deriving DecidableEq

def dirOffset : Direction → Int
  | .next => 1
  | .prev => -1

/-- The `navigate` handler: moves the anchor by the step of the active
view (`setDate` / `setMonth` / `setFullYear` on a copy of the anchor)
and stores it; Schedule jumps by a month like Month view. -/
def navigate (s : ViewState) (dir : Direction) : ViewState :=
  { currentDate :=
      match s.viewMode with
      | .day => setDate s.currentDate (getDate s.currentDate + dirOffset dir)
      | .week => setDate s.currentDate (getDate s.currentDate + dirOffset dir * 7)
      | .month => setMonth s.currentDate (getMonth s.currentDate + dirOffset dir)
      | .year => setFullYear s.currentDate (getFullYear s.currentDate + dirOffset dir)
      | .schedule => setMonth s.currentDate (getMonth s.currentDate + dirOffset dir),
    viewMode := s.viewMode }

/-- The user interactions that reach the component's two `useState` setters.
`selectDateCell` and `selectTask` are the `onSelectDate` / `onSelectTask`
callbacks fired from Day, Week and Month cells and from task chips: they
notify the parent and touch no view state. -/
inductive UiEvent
  | nav (dir : Direction)
  | todayClick (now : Int)
  | switchView (m : ViewMode)
  | selectYearDay (mIdx d : Int)
  | selectDateCell (z : Int)
  | selectTask (t : Task)

def step (s : ViewState) : UiEvent → ViewState
  | .nav dir => navigate s dir
  | .todayClick now => { s with currentDate := now }
  | .switchView m => { s with viewMode := m }
  | .selectYearDay mIdx d =>
    { currentDate := makeDay (getFullYear s.currentDate) mIdx d, viewMode := .day }
  | .selectDateCell _ => s
  | .selectTask _ => s

/-- The partial task passed to `handleAddTask` (fields the form may omit). -/
structure TaskInput where
  title : Option String
  description : Option String
  dueDate : Option String
  priority : Option Priority
  category : Option String
  tags : Option (List String)
  recurrence : Option Recurrence

/-- JS `x || dflt` for an optional string (absent or empty falls back). -/
def jsOrStr (o : Option String) (dflt : String) : String :=
  match o with
  | some s => if s.data.isEmpty then dflt else s
  | none => dflt

/-- `newTask.category || categories[0].name`: a truthy input category
short-circuits; otherwise `categories[0].name` is read, which on an empty
category list is `undefined.name` — a thrown TypeError, modelled as
`none`. -/
def jsCategoryOf (input : Option String) (categories : List Category) : Option String :=
  match input with
  | some s => if s.data.isEmpty then categories.head?.map Category.name else some s
  | none => categories.head?.map Category.name

/-- `handleAddTask`: builds the new task (fresh id and `Date.now()` are
passed in) and prepends it to the task list.  The result is `none` when
building the task object throws (the category fallback read on an empty
category list); the caller's `setTasks` is then never reached and the
list is left unchanged. -/
def handleAddTask (input : TaskInput) (freshId : String) (now : Int)
    (categories : List Category) (prev : List Task) : Option (List Task) :=
  match jsCategoryOf input.category categories with
  | none => none
  | some cat =>
    some
      ({ id := freshId,
         title := jsOrStr input.title (String.mk
           ['U', 'n', 't', 'i', 't', 'l', 'e', 'd', ' ', 'T', 'a', 's', 'k']),
         description := some (jsOrStr input.description (String.mk [])),
         dueDate := some (jsOrStr input.dueDate (String.mk [])),
         startTime := Option.none,
         endTime := Option.none,
         priority := input.priority.getD Priority.medium,
         status := TaskStatus.todo,
         category := cat,
         tags := input.tags.getD [],
         recurrence := input.recurrence.getD Recurrence.none,
         createdAt := now } :: prev)

/-- `grouped[k]` : the object lookup used when the Schedule view renders a
group (first entry with the key; `[]` when absent). -/
def groupOf (gs : List (List Char × List Task)) (k : List Char) : List Task :=
  match gs with
  | [] => []
  | (k2, ts) :: rest => if k2 = k then ts else groupOf rest k

/-- Does task `t` bucket to key `k`? -/
def keyMatch (t : Task) (k : List Char) : Bool :=
  match t.dueDate with
  | some s => !s.data.isEmpty && decide (bucketKeyChars s = k)
  | none => false

theorem mem_insertByTime (x a : Task) (l : List Task) :
    x ∈ insertByTime a l ↔ x = a ∨ x ∈ l := by
  induction l with
  | nil => simp [insertByTime]
  | cons y ys ih =>
    unfold insertByTime
    split_ifs <;> simp [ih] <;> tauto

theorem mem_jsSortByTime (x : Task) (l : List Task) :
    x ∈ jsSortByTime l ↔ x ∈ l := by
  induction l with
  | nil => simp [jsSortByTime]
  | cons y ys ih =>
    unfold jsSortByTime
    rw [mem_insertByTime]
    simp [ih]

theorem groupOf_pushTask (k k2 : List Char) (t : Task)
    (gs : List (List Char × List Task)) :
    groupOf (pushTask k t gs) k2 =
      if k2 = k then groupOf gs k ++ [t] else groupOf gs k2 := by
  induction gs with
  | nil =>
    simp only [pushTask, groupOf]
    split_ifs <;> simp_all [groupOf]
  | cons p rest ih =>
    obtain ⟨k3, ts⟩ := p
    simp only [pushTask, groupOf]
    split_ifs <;> simp_all [groupOf]

theorem groupOf_groupTasksAux (l : List Task) :
    ∀ (acc : List (List Char × List Task)) (k : List Char),
      groupOf (groupTasksAux acc l) k =
        groupOf acc k ++ (l.filter fun t => keyMatch t k) := by
  induction l with
  | nil => intro acc k; simp [groupTasksAux]
  | cons t rest ih =>
    intro acc k
    unfold groupTasksAux
    match hdue : t.dueDate with
    | Option.none =>
      rw [ih, List.filter_cons]
      have hkm : keyMatch t k = false := by simp [keyMatch, hdue]
      rw [hkm]
      simp
    | Option.some s =>
      dsimp only
      by_cases hs : s.data.isEmpty = true
      · rw [if_pos hs, ih, List.filter_cons]
        have hkm : keyMatch t k = false := by simp [keyMatch, hdue, hs]
        rw [hkm]
        simp
      · rw [if_neg hs, ih, groupOf_pushTask]
        by_cases hk : k = bucketKeyChars s
        · rw [if_pos hk, List.filter_cons]
          have hkm : keyMatch t k = true := by
            simp [keyMatch, hdue, hk]
            simpa using hs
          rw [hkm, hk]
          simp
        · rw [if_neg hk, List.filter_cons]
          have hkm : keyMatch t k = false := by
            simp [keyMatch, hdue]
            intro h
            exact fun hc => hk hc.symm
          rw [hkm]
          simp

/-- A minimal task with a given id and due-date string (used for concrete
witnesses and counterexamples). -/
def mkDueTask (id due : String) : Task :=
  ⟨id, id, Option.none, some due, Option.none, Option.none, Priority.medium,
    TaskStatus.todo, "Work", [], Recurrence.none, 0⟩

theorem jsOrStr_ne_nil (o : Option String) (dflt : String) (h : dflt.data ≠ []) :
    (jsOrStr o dflt).data ≠ [] := by
  unfold jsOrStr
  match o with
  | Option.none => exact h
  | Option.some s =>
    dsimp only
    by_cases hs : s.data.isEmpty = true
    · rw [if_pos hs]
      exact h
    · rw [if_neg hs]
      simpa using hs

/-- Claim C1: a task with a present `dueDate` is in the bucket returned by
`getTasksForDate date` exactly when the `split('T')[0]` prefix of its
due-date string equals the ISO date key of `date` (and the string is
truthy); the Day view is this bucket, each Week column and Month day cell
carries exactly the bucket of its own date, and a Schedule group lookup
for key `k` contains the task exactly under the same rule with `k` in
place of the date's key. -/
theorem c1_bucket_consistency (tasks : List Task) (t : Task) (s : String) (date : Int)
    (hdue : t.dueDate = some s) :
    (t ∈ getTasksForDate tasks date ↔
      t ∈ tasks ∧ s.data ≠ [] ∧ bucketKeyChars s = toISOKey date) ∧
    renderDayView tasks date = getTasksForDate tasks date ∧
    (∀ p ∈ renderWeekView tasks date, p.2 = getTasksForDate tasks p.1) ∧
    (∀ c ∈ renderMonthView tasks date, ∀ dz ts, c = some (dz, ts) →
      ts = getTasksForDate tasks dz) ∧
    (∀ k, t ∈ groupOf (scheduleGroups tasks) k ↔
      t ∈ tasks ∧ s.data ≠ [] ∧ bucketKeyChars s = k) := by
  refine ⟨?_, rfl, ?_, ?_, ?_⟩
  · rw [getTasksForDate, List.mem_filter]
    simp only [hdue]
    rcases s with ⟨l⟩
    cases l with
    | nil => simp
    | cons c cs => simp
  · intro p hp
    unfold renderWeekView at hp
    obtain ⟨a, ha, rfl⟩ := List.mem_map.mp hp
    rfl
  · intro c hc dz ts hc2
    unfold renderMonthView at hc
    rcases List.mem_append.mp hc with h | h
    · rw [List.eq_of_mem_replicate h] at hc2
      cases hc2
    · obtain ⟨a, ha, rfl⟩ := List.mem_map.mp h
      injection hc2 with h3
      injection h3 with h4 h5
      rw [← h4, ← h5]
  · intro k
    unfold scheduleGroups
    rw [groupOf_groupTasksAux]
    simp only [groupOf, List.nil_append]
    rw [List.mem_filter, mem_jsSortByTime, List.mem_filter]
    unfold keyMatch hasDue
    rw [hdue]
    rcases s with ⟨l⟩
    cases l with
    | nil => simp
    | cons c cs => simp

/-- Claim C9: navigation never changes the view mode; the stepped state
keeps `viewMode` verbatim for every anchor, mode and direction. -/
theorem c9_navigate_preserves_viewMode (s : ViewState) (dir : Direction) :
    (step s (UiEvent.nav dir)).viewMode = s.viewMode := rfl

/-- Claim C10 (amended): whenever the category collection is non-empty
(as the app guarantees — it seeds three categories and only ever appends)
or the input carries a non-empty category, `handleAddTask` produces a
task with status `Todo` and a non-empty title, substituting
"Untitled Task" for an absent or empty input title and `Medium` for an
absent priority, and prepends it to the front of the unchanged existing
list; with an empty category collection and an absent or empty input
category it instead throws while reading `categories[0].name` and
produces nothing. -/
theorem c10_handleAddTask_defaults (input : TaskInput) (freshId : String) (now : Int)
    (categories : List Category) (prev : List Task)
    (hcat : categories ≠ [] ∨ ∃ s, input.category = some s ∧ s.data ≠ []) :
    (∃ t : Task, handleAddTask input freshId now categories prev = some (t :: prev) ∧
      t.status = TaskStatus.todo ∧
      t.title.data ≠ [] ∧
      ((input.title = Option.none ∨ input.title = some (String.mk [])) →
        t.title = String.mk ['U', 'n', 't', 'i', 't', 'l', 'e', 'd', ' ', 'T', 'a', 's', 'k']) ∧
      (input.priority = Option.none → t.priority = Priority.medium) ∧
      (∀ p, input.priority = some p → t.priority = p)) ∧
    ((input.category = Option.none ∨ input.category = some (String.mk [])) →
      handleAddTask input freshId now [] prev = Option.none) := by
  constructor
  · obtain ⟨c, hc⟩ : ∃ c, jsCategoryOf input.category categories = some c := by
      rcases hcat with hne | ⟨s, hs, hsd⟩
      · rcases categories with _ | ⟨c0, cs⟩
        · exact absurd rfl hne
        · cases hin : input.category with
          | none => exact ⟨c0.name, by simp [jsCategoryOf, hin]⟩
          | some s =>
            by_cases hs2 : s.data.isEmpty = true
            · exact ⟨c0.name, by simp [jsCategoryOf, hin, hs2]⟩
            · exact ⟨s, by simp [jsCategoryOf, hin, hs2]⟩
      · have hbe : s.data.isEmpty = false := by
          cases hd : s.data with
          | nil => exact absurd hd hsd
          | cons a as => rfl
        refine ⟨s, ?_⟩
        rw [hs]
        unfold jsCategoryOf
        dsimp only
        rw [hbe]
        simp
    unfold handleAddTask
    rw [hc]
    dsimp only
    refine ⟨_, rfl, rfl, ?_, ?_, ?_, ?_⟩
    · show (jsOrStr input.title (String.mk
        ['U', 'n', 't', 'i', 't', 'l', 'e', 'd', ' ', 'T', 'a', 's', 'k'])).data ≠ []
      exact jsOrStr_ne_nil input.title _ (by decide)
    · intro h
      show jsOrStr input.title (String.mk
        ['U', 'n', 't', 'i', 't', 'l', 'e', 'd', ' ', 'T', 'a', 's', 'k']) = String.mk
        ['U', 'n', 't', 'i', 't', 'l', 'e', 'd', ' ', 'T', 'a', 's', 'k']
      rcases h with h | h <;> simp [jsOrStr, h]
    · intro h
      show input.priority.getD Priority.medium = Priority.medium
      rw [h]
      rfl
    · intro p h
      show input.priority.getD Priority.medium = p
      rw [h]
      rfl
  · intro h
    rcases h with h | h <;> simp [handleAddTask, jsCategoryOf, h]

/-- Claim C5: the Month grid is exactly the weekday offset of day 1 worth
of leading empty cells followed by one cell per day of the month — total
`offset + daysInMonth` cells, with `daysInMonth` equal to the textbook
Gregorian month length and no trailing padding; January 2024 (day number
19723 is 2024-01-01) yields 1 + 31 = 32 cells. -/
theorem c5_month_grid_length (tasks : List Task) (anchor : Int) :
    (renderMonthView tasks anchor).length =
      (getDay (makeDay (getFullYear anchor) (getMonth anchor) 1)).toNat +
        (daysInMonthCivil (getFullYear anchor) (getMonth anchor + 1)).toNat ∧
    (renderMonthView tasks anchor).take
        (getDay (makeDay (getFullYear anchor) (getMonth anchor) 1)).toNat =
      List.replicate (getDay (makeDay (getFullYear anchor) (getMonth anchor) 1)).toNat
        Option.none ∧
    (renderMonthView tasks anchor).drop
        (getDay (makeDay (getFullYear anchor) (getMonth anchor) 1)).toNat =
      (List.range (daysInMonthJS (getFullYear anchor) (getMonth anchor)).toNat).map
        (fun (i : Nat) => some (makeDay (getFullYear anchor) (getMonth anchor) ((i : Int) + 1),
          getTasksForDate tasks (makeDay (getFullYear anchor) (getMonth anchor) ((i : Int) + 1)))) ∧
    (renderMonthView [] 19723).length = 32 := by
  have hmr : 0 ≤ getMonth anchor ∧ getMonth anchor ≤ 11 := by
    have := civil_range anchor
    unfold getMonth
    omega
  have hdim := daysInMonthJS_eq (getFullYear anchor) (getMonth anchor) hmr.1 hmr.2
  refine ⟨?_, ?_, ?_, by decide⟩
  · unfold renderMonthView
    rw [List.length_append, List.length_replicate, List.length_map, List.length_range, hdim]
  · unfold renderMonthView
    exact List.take_left' (List.length_replicate _ _)
  · unfold renderMonthView
    exact List.drop_left' (List.length_replicate _ _)

/-- Claim C6: the Week view's dates are the anchor minus its weekday index
(Sunday = 0) through the following six days — exactly 7 consecutive dates —
and each column carries the date-bucket filter of its own date. -/
theorem c6_week_window (tasks : List Task) (anchor : Int) :
    weekDates anchor = (List.range 7).map (fun (i : Nat) => anchor - getDay anchor + (i : Int)) ∧
    (renderWeekView tasks anchor).length = 7 ∧
    renderWeekView tasks anchor =
      (weekDates anchor).map (fun dte => (dte, getTasksForDate tasks dte)) := by
  have hsw : startOfWeek anchor = anchor - getDay anchor := by
    unfold startOfWeek
    rw [setDate_add]
    ring
  have hwd : weekDates anchor
      = (List.range 7).map fun (i : Nat) => anchor - getDay anchor + (i : Int) := by
    unfold weekDates
    apply List.map_congr_left
    intro a ha
    rw [setDate_add, hsw]
    ring
  refine ⟨hwd, ?_, rfl⟩
  unfold renderWeekView weekDates
  rw [List.length_map, List.length_map, List.length_range]

/-- Claim C8: clicking a day cell in the Year view is a member of that
month's cells, switches the view mode to Day, and sets the anchor to
exactly the selected day (year, 0-based month index and day of month all
match); the other selection callbacks (`onSelectDate` from Day/Week/Month
cells, `onSelectTask`) leave the state — in particular the view mode —
untouched. -/
theorem c8_year_day_selection (s : ViewState) (mIdx d : Int)
    (hm0 : 0 ≤ mIdx) (hm1 : mIdx ≤ 11) (hd1 : 1 ≤ d)
    (hd2 : d ≤ daysInMonthJS (getFullYear s.currentDate) mIdx) :
    makeDay (getFullYear s.currentDate) mIdx d
        ∈ yearDayCells (getFullYear s.currentDate) mIdx ∧
    (step s (UiEvent.selectYearDay mIdx d)).viewMode = ViewMode.day ∧
    (step s (UiEvent.selectYearDay mIdx d)).currentDate
        = makeDay (getFullYear s.currentDate) mIdx d ∧
    getFullYear (step s (UiEvent.selectYearDay mIdx d)).currentDate
        = getFullYear s.currentDate ∧
    getMonth (step s (UiEvent.selectYearDay mIdx d)).currentDate = mIdx ∧
    getDate (step s (UiEvent.selectYearDay mIdx d)).currentDate = d ∧
    (∀ z, step s (UiEvent.selectDateCell z) = s) ∧
    (∀ t, step s (UiEvent.selectTask t) = s) := by
  have hd2c : d ≤ daysInMonthCivil (getFullYear s.currentDate) (mIdx + 1) := by
    rw [← daysInMonthJS_eq (getFullYear s.currentDate) mIdx hm0 hm1]
    exact hd2
  have hciv := makeDay_civil (getFullYear s.currentDate) mIdx d hm0 hm1 hd1 hd2c
  refine ⟨?_, rfl, rfl, ?_, ?_, ?_, fun z => rfl, fun t => rfl⟩
  · unfold yearDayCells
    rw [List.mem_map]
    refine ⟨(d - 1).toNat, ?_, ?_⟩
    · rw [List.mem_range]
      omega
    · congr 1
      omega
  · show (civilFromDays (makeDay (getFullYear s.currentDate) mIdx d)).1
        = getFullYear s.currentDate
    rw [hciv]
  · show (civilFromDays (makeDay (getFullYear s.currentDate) mIdx d)).2.1 - 1 = mIdx
    rw [hciv]
    dsimp only
    omega
  · show (civilFromDays (makeDay (getFullYear s.currentDate) mIdx d)).2.2 = d
    rw [hciv]

/-- Witness for C8 at a concrete cell: from anchor 2024-01-01 in Year view,
selecting month index 1, day 29 (February 29, 2024) yields Day mode with
that exact date. -/
theorem c8_year_day_selection_witness :
    (step ⟨19723, ViewMode.year⟩ (UiEvent.selectYearDay 1 29)).viewMode = ViewMode.day ∧
    getMonth (step ⟨19723, ViewMode.year⟩ (UiEvent.selectYearDay 1 29)).currentDate = 1 ∧
    getDate (step ⟨19723, ViewMode.year⟩ (UiEvent.selectYearDay 1 29)).currentDate = 29 := by
  have h := c8_year_day_selection ⟨19723, ViewMode.year⟩ 1 29
    (by norm_num) (by norm_num) (by norm_num) (by decide)
  exact ⟨h.2.1, h.2.2.2.2.1, h.2.2.2.2.2.1⟩

/-- Counterexample to claim C2 as stated: advancing one month from
January 31 lands on March 2 (2024, leap year; 19753 is 2024-01-31) and on
March 3 (2023; 19388 is 2023-01-31) — the day-of-month is not clamped to
the end of February. -/
theorem c2_counterexample :
    civilFromDays 19753 = (2024, 1, 31) ∧
    civilFromDays (navigate ⟨19753, ViewMode.month⟩ Direction.next).currentDate
      = (2024, 3, 2) ∧
    civilFromDays 19388 = (2023, 1, 31) ∧
    civilFromDays (navigate ⟨19388, ViewMode.month⟩ Direction.next).currentDate
      = (2023, 3, 3) := by
  decide

/-- Claim C2 (amended): advancing one month in Month view adds one to the
month index keeping the day-of-month count, normalized ECMAScript-style:
the new anchor is `(day − 1)` days after the first of the following month.
When the day-of-month exists in the following month this is the same
day-of-month there (no change for days ≤ 28); when it overflows, the
anchor rolls into the month after (Jan 31 → Mar 2/3), never clamping. -/
theorem c2_month_navigation_rollover (z : Int) :
    (navigate ⟨z, ViewMode.month⟩ Direction.next).currentDate
      = (if (civilFromDays z).2.1 = 12
         then daysFromCivil ((civilFromDays z).1 + 1) 1 1
         else daysFromCivil (civilFromDays z).1 ((civilFromDays z).2.1 + 1) 1)
        + ((civilFromDays z).2.2 - 1) ∧
    ((civilFromDays z).2.2 ≤ daysInMonthCivil
        (if (civilFromDays z).2.1 = 12 then (civilFromDays z).1 + 1 else (civilFromDays z).1)
        (if (civilFromDays z).2.1 = 12 then 1 else (civilFromDays z).2.1 + 1) →
      civilFromDays (navigate ⟨z, ViewMode.month⟩ Direction.next).currentDate
        = (if (civilFromDays z).2.1 = 12 then (civilFromDays z).1 + 1
             else (civilFromDays z).1,
           if (civilFromDays z).2.1 = 12 then 1 else (civilFromDays z).2.1 + 1,
           (civilFromDays z).2.2)) := by
  have hr := civil_range z
  have part1 : (navigate ⟨z, ViewMode.month⟩ Direction.next).currentDate
      = (if (civilFromDays z).2.1 = 12
         then daysFromCivil ((civilFromDays z).1 + 1) 1 1
         else daysFromCivil (civilFromDays z).1 ((civilFromDays z).2.1 + 1) 1)
        + ((civilFromDays z).2.2 - 1) := by
    show setMonth z (getMonth z + dirOffset Direction.next)
        = (if (civilFromDays z).2.1 = 12
           then daysFromCivil ((civilFromDays z).1 + 1) 1 1
           else daysFromCivil (civilFromDays z).1 ((civilFromDays z).2.1 + 1) 1)
          + ((civilFromDays z).2.2 - 1)
    unfold setMonth makeDay getMonth getFullYear getDate dirOffset
    dsimp only
    by_cases h12 : (civilFromDays z).2.1 = 12
    · rw [if_pos h12]
      have e1 : (civilFromDays z).1 + ((civilFromDays z).2.1 - 1 + 1) / 12
          = (civilFromDays z).1 + 1 := by omega
      have e2 : ((civilFromDays z).2.1 - 1 + 1) % 12 + 1 = 1 := by omega
      rw [e1, e2]
    · rw [if_neg h12]
      have e1 : (civilFromDays z).1 + ((civilFromDays z).2.1 - 1 + 1) / 12
          = (civilFromDays z).1 := by omega
      have e2 : ((civilFromDays z).2.1 - 1 + 1) % 12 + 1 = (civilFromDays z).2.1 + 1 := by omega
      rw [e1, e2]
  refine ⟨part1, ?_⟩
  intro hle
  rw [part1]
  by_cases h12 : (civilFromDays z).2.1 = 12
  · simp only [if_pos h12] at hle ⊢
    rw [← daysFromCivil_shift ((civilFromDays z).1 + 1) 1 (civilFromDays z).2.2]
    exact civilFromDays_daysFromCivil ((civilFromDays z).1 + 1) 1 (civilFromDays z).2.2
      (by norm_num) (by norm_num) (by omega) hle
  · simp only [if_neg h12] at hle ⊢
    rw [← daysFromCivil_shift (civilFromDays z).1 ((civilFromDays z).2.1 + 1)
      (civilFromDays z).2.2]
    exact civilFromDays_daysFromCivil (civilFromDays z).1 ((civilFromDays z).2.1 + 1)
      (civilFromDays z).2.2 (by omega) (by omega) (by omega) hle

/-- Witness for the amended C2: from 2024-01-01 (day 19723), month
navigation yields exactly 2024-02-01. -/
theorem c2_month_navigation_rollover_witness :
    civilFromDays (navigate ⟨19723, ViewMode.month⟩ Direction.next).currentDate
      = (if (civilFromDays 19723).2.1 = 12 then (civilFromDays 19723).1 + 1
           else (civilFromDays 19723).1,
         if (civilFromDays 19723).2.1 = 12 then 1 else (civilFromDays 19723).2.1 + 1,
         (civilFromDays 19723).2.2) :=
  (c2_month_navigation_rollover 19723).2 (by decide)

/-- Counterexample to claim C7 as stated: the bucket key 0050-03-05 does
not display as the calendar date of year 50 — the `Date(y, m, d)`
constructor's two-digit-year rule shifts it to March 5, 1950, so the
reconstruction from the key's numeric components is not exact there. -/
theorem c7_two_digit_year_counterexample :
    displayDateOfKey ['0', '0', '5', '0', '-', '0', '3', '-', '0', '5']
      = some (daysFromCivil 1950 3 5) ∧
    civilFromDays (daysFromCivil 1950 3 5) = (1950, 3, 5) ∧
    ((1950 : Int), (3 : Int), (5 : Int)) ≠ ((50 : Int), 3, 5) := by
  decide

/-- Claim C7 (amended): the Schedule view's display date is computed from
the bucket key's numeric year/month/day components alone
(`displayDateOfKey` takes only the key, never the task's timestamp).  For
every well-formed key whose year component has three or more digits
(100-9999) the reconstruction is exact: the key displays as exactly that
civil date — in particular 2024-03-05 always displays as March 5, 2024
(day number 19787).  Keys with a two-digit-range year component (0-99)
are the one exception: the constructor's two-digit-year rule displays
them as year 1900 + component. -/
theorem c7_display_date_reconstruction :
    (∀ y m d : Int, 100 ≤ y → y ≤ 9999 → 1 ≤ m → m ≤ 12 → 1 ≤ d →
        d ≤ daysInMonthCivil y m →
      displayDateOfKey (isoKeyChars y m d) = some (daysFromCivil y m d) ∧
      civilFromDays (daysFromCivil y m d) = (y, m, d)) ∧
    (∀ y m d : Int, 0 ≤ y → y ≤ 99 → 1 ≤ m → m ≤ 12 → 1 ≤ d → d ≤ 31 →
      displayDateOfKey (isoKeyChars y m d)
        = some (daysFromCivil (1900 + y) m 1 + (d - 1))) ∧
    displayDateOfKey ['2', '0', '2', '4', '-', '0', '3', '-', '0', '5'] = some 19787 ∧
    civilFromDays 19787 = (2024, 3, 5) := by
  refine ⟨?_, ?_, by decide, by decide⟩
  · intro y m d hy0 hy1 hm1 hm2 hd1 hd2
    have hciv := civilFromDays_daysFromCivil y m d hm1 hm2 hd1 hd2
    refine ⟨?_, hciv⟩
    have hkey : toISOKey (daysFromCivil y m d) = isoKeyChars y m d := by
      unfold toISOKey
      rw [hciv]
    rw [← hkey]
    apply displayDateOfKey_toISOKey
    · rw [hciv]
      exact hy0
    · rw [hciv]
      exact hy1
  · intro y m d hy0 hy1 hm1 hm2 hd1 hd2
    rw [displayDateOfKey_isoKeyChars y m d (by omega) (by omega) (by omega) (by omega)
      (by omega) (by omega)]
    rw [if_pos ⟨hy0, hy1⟩]
    unfold makeDay
    have e1 : 1900 + y + (m - 1) / 12 = 1900 + y := by omega
    have e2 : (m - 1) % 12 + 1 = m := by omega
    rw [e1, e2]

/-- Witness for the amended C7 at the concrete key of 2024-03-05. -/
theorem c7_display_date_reconstruction_witness :
    displayDateOfKey (isoKeyChars 2024 3 5) = some (daysFromCivil 2024 3 5) ∧
    civilFromDays (daysFromCivil 2024 3 5) = (2024, 3, 5) :=
  (c7_display_date_reconstruction).1 2024 3 5 (by norm_num) (by norm_num) (by norm_num)
    (by norm_num) (by norm_num) (by decide)

/-- A task whose due-date string is present but is not a date at all. -/
def tGarbage : Task :=
  mkDueTask (String.mk ['g']) (String.mk ['g', 'a', 'r', 'b', 'a', 'g', 'e'])

/-- Counterexample to claim C4 as stated: a task with the unparsable
due date "garbage" does appear in a Schedule group — the group keyed by
its raw `split('T')[0]` prefix — rather than appearing in no Schedule
group. -/
theorem c4_counterexample :
    tGarbage ∈ groupOf (scheduleGroups [tGarbage]) ['g', 'a', 'r', 'b', 'a', 'g', 'e'] ∧
    scheduleDates [tGarbage] = [['g', 'a', 'r', 'b', 'a', 'g', 'e']] := by
  decide

/-- Claim C4 (amended): a present due-date string whose `split('T')[0]`
prefix is not the ISO key of any calendar date (any string that is not
even date-shaped) never causes an error — all view functions are total —
and the task is excluded from every day bucket, hence from every Day,
Week, Month and Year cell; but the Schedule view does not exclude it: a
task in the collection with such a (non-empty) due date appears in the
Schedule group keyed by its raw prefix. -/
theorem c4_unparsable_dates (tasks : List Task) (t : Task) (s : String)
    (hdue : t.dueDate = some s)
    (hbad : ∀ z : Int, bucketKeyChars s ≠ toISOKey z) :
    (∀ date, t ∉ getTasksForDate tasks date) ∧
    (s.data ≠ [] → t ∈ tasks → t ∈ groupOf (scheduleGroups tasks) (bucketKeyChars s)) := by
  constructor
  · intro date hmem
    rw [getTasksForDate, List.mem_filter] at hmem
    rcases hmem with ⟨-, hp⟩
    rw [hdue] at hp
    dsimp only at hp
    by_cases hs : s.data.isEmpty = true
    · rw [if_pos hs] at hp
      exact absurd hp (by simp)
    · rw [if_neg hs] at hp
      exact hbad date (by simpa using hp)
  · intro hne hmem
    unfold scheduleGroups
    rw [groupOf_groupTasksAux]
    simp only [groupOf, List.nil_append]
    rw [List.mem_filter, mem_jsSortByTime, List.mem_filter]
    refine ⟨⟨hmem, ?_⟩, ?_⟩
    · unfold hasDue
      rw [hdue]
      simpa using hne
    · unfold keyMatch
      rw [hdue]
      simp [hne]

/-- Witness for the amended C4 with the concrete task due "garbage": its
7-character prefix cannot equal any 10-character ISO key, so the
hypothesis is discharged by a length comparison. -/
theorem c4_unparsable_dates_witness :
    (∀ date, tGarbage ∉ getTasksForDate [tGarbage] date) ∧
    tGarbage ∈ groupOf (scheduleGroups [tGarbage])
      (bucketKeyChars (String.mk ['g', 'a', 'r', 'b', 'a', 'g', 'e'])) := by
  have h := c4_unparsable_dates [tGarbage] tGarbage
    (String.mk ['g', 'a', 'r', 'b', 'a', 'g', 'e']) rfl
    (fun z hq => by
      have h10 := toISOKey_length z
      rw [← hq] at h10
      exact absurd h10 (by decide))
  exact ⟨h.1, h.2 (by decide) (by decide)⟩

theorem perm_insertByTime (x : Task) (l : List Task) :
    List.Perm (insertByTime x l) (x :: l) := by
  induction l with
  | nil => exact List.Perm.refl _
  | cons y ys ih =>
    unfold insertByTime
    split_ifs
    · exact List.Perm.refl _
    · exact (ih.cons y).trans (List.Perm.swap x y ys)

theorem perm_jsSortByTime (l : List Task) : List.Perm (jsSortByTime l) l := by
  induction l with
  | nil => exact List.Perm.refl _
  | cons x xs ih => exact (perm_insertByTime x (jsSortByTime xs)).trans (ih.cons x)

theorem leTime_total (a b : Task) : leTime a b = true ∨ leTime b a = true := by
  unfold leTime
  cases h1 : timeOf a <;> cases h2 : timeOf b <;> simp <;> omega

theorem leTime_trans_mid (a b c : Task) (hb : (timeOf b).isSome = true)
    (h1 : leTime a b = true) (h2 : leTime b c = true) : leTime a c = true := by
  unfold leTime at *
  cases hta : timeOf a <;> cases htb : timeOf b <;> cases htc : timeOf c <;>
    simp_all <;> omega

theorem pairwise_insertByTime (x : Task) (l : List Task)
    (hl : ∀ t ∈ l, (timeOf t).isSome = true)
    (h : l.Pairwise fun a b => leTime a b = true) :
    (insertByTime x l).Pairwise fun a b => leTime a b = true := by
  induction l with
  | nil => simp [insertByTime]
  | cons y ys ih =>
    rw [List.pairwise_cons] at h
    unfold insertByTime
    split_ifs with hxy
    · rw [List.pairwise_cons]
      refine ⟨?_, List.pairwise_cons.mpr h⟩
      intro b hb
      rcases List.mem_cons.mp hb with rfl | hb2
      · exact hxy
      · exact leTime_trans_mid x y b (hl y (by simp)) hxy (h.1 b hb2)
    · rw [List.pairwise_cons]
      refine ⟨?_, ih (fun t ht => hl t (by simp [ht])) h.2⟩
      intro b hb
      rcases (mem_insertByTime b x ys).mp hb with hbx | hb2
      · rw [hbx]
        rcases leTime_total x y with h1 | h1
        · exact absurd h1 hxy
        · exact h1
      · exact h.1 b hb2

theorem pairwise_jsSortByTime (l : List Task)
    (hl : ∀ t ∈ l, (timeOf t).isSome = true) :
    (jsSortByTime l).Pairwise fun a b => leTime a b = true := by
  induction l with
  | nil => simp [jsSortByTime]
  | cons x xs ih =>
    unfold jsSortByTime
    apply pairwise_insertByTime
    · intro t ht
      exact hl t (by simp [(mem_jsSortByTime t xs).mp ht])
    · exact ih fun t ht => hl t (by simp [ht])

theorem filter_time_insertByTime (x : Task) (l : List Task) (v : Int) :
    (insertByTime x l).filter (fun t => decide (timeOf t = some v))
      = if timeOf x = some v
        then x :: l.filter (fun t => decide (timeOf t = some v))
        else l.filter (fun t => decide (timeOf t = some v)) := by
  induction l with
  | nil =>
    simp only [insertByTime, List.filter_cons, List.filter_nil]
    split_ifs <;> simp_all
  | cons y ys ih =>
    unfold insertByTime
    by_cases hxy : leTime x y = true
    · rw [if_pos hxy, List.filter_cons, List.filter_cons]
      split_ifs <;> simp_all [List.filter_cons]
    · rw [if_neg hxy, List.filter_cons, ih]
      have hkey : ¬(timeOf x = some v ∧ timeOf y = some v) := by
        rintro ⟨h1, h2⟩
        apply hxy
        unfold leTime
        rw [h1, h2]
        simp
      split_ifs <;> simp_all [List.filter_cons]

/-- Stability of the Schedule sort: tasks sharing one timestamp keep their
input order (their filtered subsequence is unchanged). -/
theorem filter_time_jsSortByTime (l : List Task) (v : Int) :
    (jsSortByTime l).filter (fun t => decide (timeOf t = some v))
      = l.filter (fun t => decide (timeOf t = some v)) := by
  induction l with
  | nil => rfl
  | cons x xs ih =>
    unfold jsSortByTime
    rw [filter_time_insertByTime, ih, List.filter_cons]
    split_ifs <;> simp_all

/-- The three tasks of the Schedule scenario, in input order. -/
def t0900 : Task :=
  mkDueTask (String.mk ['a'])
    (String.mk ['2', '0', '2', '4', '-', '0', '5', '-', '1', '0', 'T', '0', '9', ':', '0', '0'])

def t2300 : Task :=
  mkDueTask (String.mk ['b'])
    (String.mk ['2', '0', '2', '4', '-', '0', '5', '-', '0', '9', 'T', '2', '3', ':', '0', '0'])

def t0100 : Task :=
  mkDueTask (String.mk ['c'])
    (String.mk ['2', '0', '2', '4', '-', '0', '5', '-', '1', '0', 'T', '0', '1', ':', '0', '0'])

/-- Counterexample to claim C3 as stated: for tasks due 2024-05-10T09:00,
2024-05-09T23:00 and 2024-05-10T01:00 (that input order), the second
group's tasks are the 01:00 task before the 09:00 task — sorted by
timestamp, the reverse of their input order, where the claim says input
order is preserved within the group. -/
theorem c3_counterexample :
    scheduleGroups [t0900, t2300, t0100]
      = [(['2', '0', '2', '4', '-', '0', '5', '-', '0', '9'], [t2300]),
         (['2', '0', '2', '4', '-', '0', '5', '-', '1', '0'], [t0100, t0900])] ∧
    t0100 ≠ t0900 := by
  decide

/-- Two tasks stored in the canonical `toISOString` format that
`handleAddTask` writes, in reverse chronological input order. -/
def tZ0511 : Task :=
  mkDueTask (String.mk ['e'])
    (String.mk ['2', '0', '2', '4', '-', '0', '5', '-', '1', '1', 'T', '0', '0', ':',
      '0', '0', ':', '0', '0', '.', '0', '0', '0', 'Z'])

def tZ0509 : Task :=
  mkDueTask (String.mk ['f'])
    (String.mk ['2', '0', '2', '4', '-', '0', '5', '-', '0', '9', 'T', '0', '0', ':',
      '0', '0', ':', '0', '0', '.', '0', '0', '0', 'Z'])

/-- Claim C3 (amended): the Schedule view keeps tasks with a truthy
`dueDate`, stable-sorts them ascending by full-timestamp value, and
groups them by bucket key in sorted order: each group is exactly the
key-matching subsequence of the sorted list; the sorted list is a
permutation of the filtered input; it is pairwise timestamp-ordered
whenever every kept due date parses — which includes the app's own
canonical stored format `YYYY-MM-DDTHH:mm:ss.sssZ`, whose time value the
model computes (penultimate conjunct), and such tasks sort
chronologically, not in input order (last conjunct); equal-timestamp
tasks keep their input order (the stable-sort tie rule); and the concrete
input above yields exactly two ordered groups, 2024-05-09 with one task
then 2024-05-10 with two tasks in chronological order (01:00 before
09:00), reversing their input order. -/
theorem c3_schedule_grouping (tasks : List Task) :
    (∀ k, groupOf (scheduleGroups tasks) k
        = (jsSortByTime (tasks.filter hasDue)).filter fun t => keyMatch t k) ∧
    List.Perm (jsSortByTime (tasks.filter hasDue)) (tasks.filter hasDue) ∧
    ((∀ t ∈ tasks.filter hasDue, (timeOf t).isSome = true) →
      (jsSortByTime (tasks.filter hasDue)).Pairwise fun a b => leTime a b = true) ∧
    (∀ v : Int, (jsSortByTime (tasks.filter hasDue)).filter
          (fun t => decide (timeOf t = some v))
        = (tasks.filter hasDue).filter fun t => decide (timeOf t = some v)) ∧
    scheduleGroups [t0900, t2300, t0100]
      = [(['2', '0', '2', '4', '-', '0', '5', '-', '0', '9'], [t2300]),
         (['2', '0', '2', '4', '-', '0', '5', '-', '1', '0'], [t0100, t0900])] ∧
    jsTimeValue (String.mk ['2', '0', '2', '4', '-', '0', '5', '-', '0', '9', 'T', '0',
        '0', ':', '0', '0', ':', '0', '0', '.', '0', '0', '0', 'Z'])
      = some (19852 * 86400000) ∧
    scheduleGroups [tZ0511, tZ0509]
      = [(['2', '0', '2', '4', '-', '0', '5', '-', '0', '9'], [tZ0509]),
         (['2', '0', '2', '4', '-', '0', '5', '-', '1', '1'], [tZ0511])] := by
  refine ⟨?_, perm_jsSortByTime _, pairwise_jsSortByTime _,
    filter_time_jsSortByTime _, by decide, by decide, by decide⟩
  intro k
  unfold scheduleGroups
  rw [groupOf_groupTasksAux]
  simp only [groupOf, List.nil_append]

/-- Witness for the amended C3: every due date of the concrete scenario
parses, so the sorted list is pairwise timestamp-ordered. -/
theorem c3_schedule_grouping_witness :
    (jsSortByTime ([t0900, t2300, t0100].filter hasDue)).Pairwise
      (fun a b => leTime a b = true) :=
  (c3_schedule_grouping [t0900, t2300, t0100]).2.2.1 (by decide)

/-- Witness for C1: the 2024-05-10T09:00 task is in the bucket of day
19853 (2024-05-10). -/
theorem c1_bucket_consistency_witness :
    t0900 ∈ getTasksForDate [t0900] 19853 := by
  have h := c1_bucket_consistency [t0900] t0900
    (String.mk ['2', '0', '2', '4', '-', '0', '5', '-', '1', '0', 'T', '0', '9', ':', '0', '0'])
    19853 rfl
  exact h.1.mpr ⟨by decide, by decide, by decide⟩

/-- A form submission with every field omitted. -/
def inputEmpty : TaskInput :=
  ⟨Option.none, Option.none, Option.none, Option.none, Option.none, Option.none,
    Option.none⟩

/-- Counterexample to claim C10 as stated: with the category collection
empty and no input category at all, `handleAddTask` reads
`categories[0].name` of an empty array — a thrown TypeError — so no task
is produced and nothing is prepended. -/
theorem c10_empty_categories_counterexample :
    handleAddTask inputEmpty (String.mk ['i']) 0 [] [] = Option.none := rfl

/-- Witness for the amended C10: with one category present, adding a
fully-empty input yields a Todo task titled "Untitled Task" with Medium
priority, prepended to the (empty) list. -/
theorem c10_handleAddTask_defaults_witness :
    ∃ t : Task, handleAddTask inputEmpty (String.mk ['i']) 0
        [⟨String.mk ['1'], String.mk ['W'], String.mk ['b']⟩] []
      = some (t :: []) ∧
      t.title = String.mk ['U', 'n', 't', 'i', 't', 'l', 'e', 'd', ' ', 'T', 'a', 's', 'k'] ∧
      t.priority = Priority.medium ∧ t.status = TaskStatus.todo := by
  obtain ⟨t, h1, h2, h3, h4, h5, h6⟩ :=
    (c10_handleAddTask_defaults inputEmpty (String.mk ['i']) 0
      [⟨String.mk ['1'], String.mk ['W'], String.mk ['b']⟩] [] (Or.inl (by decide))).1
  exact ⟨t, h1, h4 (Or.inl rfl), h5 rfl, h2⟩

end MyPlanner
